import Mathlib

/-
Verification of the bean-sprout-planter consultation engine.

The frontend JavaScript under src/web/static/js is embedded shallowly:
  - common.js utilities (calculatePercentage, storage) as pure functions,
  - the AIConsultationManager chat-history store (addToHistory,
    loadConsultationHistory, clearHistory, updateHistoryDisplay) as a small
    state machine over explicit state records,
  - sendQuestion / selectTag / executeQuickAction as state transformers that
    additionally report whether an API request was issued.

The backend consultation pipeline (src/ai/ai_consultation.py and
src/api/ai_api.py) is not present in the repository snapshot; the parts of
it that some claims need (schema validator, fallback policy, request
router) are modelled from the specification, and each such definition is
marked with a doc comment beginning with the words Modelled from the spec.
-/

namespace BeanSprout

/- ------------------------------------------------------------------ -/
/- common.js utilities                                                 -/
/- ------------------------------------------------------------------ -/

/-- Embedding of Math.round: JavaScript rounds half toward positive
infinity, so Math.round x = floor (x + 1/2). -/
def jsRound (q : ℚ) : ℤ := ⌊q + 1/2⌋

/-- Embedding of calculatePercentage from common.js:
if (total === 0) return 0; return Math.round((value / total) * 100). -/
def calculatePercentage (value total : ℚ) : ℤ :=
  if total = 0 then 0 else jsRound (value / total * 100)

/-- Whitespace characters removed by String.prototype.trim (ASCII part). -/
def isJsWs (c : Char) : Bool :=
  (c == ' ') || (c == '\t') || (c == '\n') || (c == '\r') || (c == '\x0b') || (c == '\x0c')

/-- Embedding of String.prototype.trim: drop whitespace from both ends. -/
def jsTrim (s : String) : String :=
  String.mk (((s.data.dropWhile isJsWs).reverse.dropWhile isJsWs).reverse)

/- ------------------------------------------------------------------ -/
/- History store (ai-consultation.js)                                  -/
/- ------------------------------------------------------------------ -/

/-- One element of this.chatHistory: the object literal built inside
addToHistory with fields timestamp, question, answer, tag. -/
structure HistoryItem where
  timestamp : String
  question : String
  answer : String
  tag : String
deriving DecidableEq, Repr

/-- this.maxHistoryLength, set to 50 in the constructor. -/
def maxHistoryLength : ℕ := 50

/-- Embedding of the list update performed by addToHistory:
unshift the new item, then if length > maxHistoryLength keep
slice(0, maxHistoryLength). -/
def addToHistoryList (h : List HistoryItem) (e : HistoryItem) : List HistoryItem :=
  let h2 := e :: h
  if h2.length > maxHistoryLength then h2.take maxHistoryLength else h2

/-- Embedding of storage.set from common.js: localStorage.setItem wrapped in
try/catch. The stored value is replaced on success; on a thrown error the
store is untouched and the error is logged (second component). -/
def storageSet (stored : Option (List HistoryItem)) (v : List HistoryItem)
    (fails : Bool) : Option (List HistoryItem) × Bool :=
  if fails then (stored, true) else (some v, false)

/-- Embedding of storage.remove from common.js: localStorage.removeItem
wrapped in try/catch; on a thrown error the store is untouched. -/
def storageRemove (stored : Option (List HistoryItem)) (fails : Bool) :
    Option (List HistoryItem) :=
  if fails then stored else none

/-- Embedding of storage.get with default []: the stored value if present,
otherwise the default. -/
def storageGet (stored : Option (List HistoryItem)) : List HistoryItem :=
  stored.getD []

/-- State of the consultation-history subsystem: the in-memory
this.chatHistory array and the localStorage slot under the key
ai_consultation_history. -/
structure HistState where
  chatHistory : List HistoryItem
  stored : Option (List HistoryItem)
deriving DecidableEq, Repr

/-- Embedding of the full addToHistory method: update the in-memory list,
then write it through storage.set; the Bool argument says whether the
durable write throws. Returns the new state and whether an error was
logged. -/
def addToHistoryOp (s : HistState) (e : HistoryItem) (storeFails : Bool) :
    HistState × Bool :=
  let h2 := addToHistoryList s.chatHistory e
  let sv := storageSet s.stored h2 storeFails
  ({ chatHistory := h2, stored := sv.1 }, sv.2)

/-- Embedding of loadConsultationHistory: this.chatHistory :=
storage.get(ai_consultation_history, []). -/
def loadOp (s : HistState) : HistState :=
  { s with chatHistory := storageGet s.stored }

/-- Embedding of clearHistory: this.chatHistory := []; storage.remove. -/
def clearHistoryOp (s : HistState) (removeFails : Bool) : HistState :=
  { chatHistory := [], stored := storageRemove s.stored removeFails }

/-- Rendering of one history entry by updateHistoryDisplay (the HTML
wrapper text is abbreviated; the entry fields used are tag, timestamp,
question). -/
def renderHistoryItem (it : HistoryItem) : String :=
  ("<div class=history-item><strong>") ++ it.tag ++ ("</strong><small>")
    ++ it.timestamp ++ ("</small><div>") ++ it.question ++ ("</div></div>")

/-- Embedding of updateHistoryDisplay: empty-history placeholder, else the
concatenated rendering of slice(0, 5). -/
def updateHistoryDisplay (h : List HistoryItem) : String :=
  if h.length = 0 then ("<p>相談履歴がありません</p>")
  else String.join ((h.take 5).map renderHistoryItem)

/-- updateHistoryDisplay as an operation on the history state: it reads the
state and produces markup; the state is returned unchanged. -/
def updateHistoryDisplayOp (s : HistState) : HistState × String :=
  (s, updateHistoryDisplay s.chatHistory)

/-- The consultation-history operations a page session can perform. The
Bool on add / clear says whether the durable-storage call throws. -/
inductive HistOp where
  | load : HistOp
  | add : HistoryItem → Bool → HistOp
  | clear : Bool → HistOp

/-- One step of the history state machine. -/
def histStep (s : HistState) : HistOp → HistState
  | HistOp.load => loadOp s
  | HistOp.add e fl => (addToHistoryOp s e fl).1
  | HistOp.clear fl => clearHistoryOp s fl

/-- Initial state: the constructor sets this.chatHistory = [] and the
storage key is initially absent. -/
def initHistState : HistState := { chatHistory := [], stored := none }

/-- Run a sequence of history operations from the initial state. -/
def histRun (ops : List HistOp) : HistState :=
  ops.foldl histStep initHistState

/-- Sequential additions through addToHistory (used for the FIFO claim). -/
def addAll (h : List HistoryItem) (es : List HistoryItem) : List HistoryItem :=
  es.foldl addToHistoryList h

/-- Invariant carried by the history state machine. -/
def HistInvP (s : HistState) : Prop :=
  s.chatHistory.length ≤ maxHistoryLength ∧
    ∀ l, s.stored = some l → l.length ≤ maxHistoryLength

/- ------------------------------------------------------------------ -/
/- AIConsultationManager page state (ai-consultation.js)               -/
/- ------------------------------------------------------------------ -/

/-- One message bubble appended to the chat container by
addMessageToChat. -/
structure ChatMsg where
  sender : String
  text : String
  isLoading : Bool
  variant : String
deriving DecidableEq, Repr

/-- User bubble (the source forwards the attached image in the variant
slot of addMessageToChat; the rendered variant class is default). -/
def userMsg (q : String) : ChatMsg :=
  { sender := ("user"), text := q, isLoading := false, variant := ("default") }

/-- The loading bubble shown while the request is in flight. -/
def aiLoadingMsg : ChatMsg :=
  { sender := ("ai"), text := ("考え中..."), isLoading := true, variant := ("default") }

/-- Answer bubble. -/
def aiMsg (a : String) : ChatMsg :=
  { sender := ("ai"), text := a, isLoading := false, variant := ("default") }

/-- Error bubble (variant danger). -/
def aiErrorMsg (a : String) : ChatMsg :=
  { sender := ("ai"), text := a, isLoading := false, variant := ("danger") }

/-- Outcome of the fetch to /api/ai/consultation as observed by
sendQuestion: a success payload, an error payload (data.status differs
from success), or a thrown network error. -/
inductive ApiOutcome where
  | success : String → ApiOutcome
  | apiError : String → ApiOutcome
  | thrown : String → ApiOutcome

/-- The page state the AIConsultationManager methods read and write:
selected tag, in-memory history plus its durable slot, the question input
field, the chat container, the image attachment, and the notification
area. -/
structure MgrState where
  selectedTag : String
  chatHistory : List HistoryItem
  stored : Option (List HistoryItem)
  questionInput : String
  chatMessages : List ChatMsg
  attachedImage : Option String
  notifications : List (String × String)
deriving DecidableEq, Repr

/-- State set up by the constructor (selectedTag general, empty history)
on a fresh page. -/
def initMgrState : MgrState :=
  { selectedTag := ("general"), chatHistory := [], stored := none,
    questionInput := "", chatMessages := [], attachedImage := none,
    notifications := [] }

/-- Embedding of selectTag: the manager stores the tag verbatim (the UI
class toggling touches no manager state). -/
def selectTag (st : MgrState) (tag : String) : MgrState :=
  { st with selectedTag := tag }

/-- Embedding of showNotification: append a message of the given level. -/
def notify (st : MgrState) (msg level : String) : MgrState :=
  { st with notifications := st.notifications ++ [(msg, level)] }

/-- Embedding of sendQuestion (image-attachment variant of
ai-consultation.js). Arguments beyond the state: the current timestamp
string, how the fetch turns out, and whether the durable history write
throws. Returns the new page state and whether an API request was
issued. -/
def sendQuestion (st : MgrState) (now : String) (out : ApiOutcome)
    (storeFails : Bool) : MgrState × Bool :=
  let question := jsTrim st.questionInput
  if question = "" ∧ st.attachedImage = none then
    (notify st ("質問を入力するか画像を添付してください") ("warning"), false)
  else
    let st0 := { st with chatMessages := st.chatMessages ++ [userMsg question] ++ [aiLoadingMsg] }
    let st1 := { st0 with questionInput := "" }
    match out with
    | ApiOutcome.success answer =>
        let st2 := { st1 with chatMessages := st1.chatMessages.dropLast ++ [aiMsg answer] }
        let entry : HistoryItem := { timestamp := now, question := question, answer := answer, tag := st2.selectedTag }
        let newHist := addToHistoryList st2.chatHistory entry
        let st3 := { st2 with chatHistory := newHist }
        let st4 := { st3 with stored := (storageSet st3.stored newHist storeFails).1 }
        let st5 := notify st4 ("AI相談が完了しました") ("success")
        ({ st5 with attachedImage := none }, true)
    | ApiOutcome.apiError e =>
        let st2 := { st1 with chatMessages := st1.chatMessages.dropLast ++ [aiErrorMsg (("エラー: ") ++ e)] }
        let st3 := notify st2 ("AI相談でエラーが発生しました") ("danger")
        ({ st3 with attachedImage := none }, true)
    | ApiOutcome.thrown e =>
        let st2 := { st1 with chatMessages := st1.chatMessages.dropLast ++ [aiErrorMsg (("エラー: ") ++ e)] }
        (notify st2 ("AI相談でエラーが発生しました") ("danger"), true)

/-- The switch statement of executeQuickAction: the canned question for a
recognised action, none for the default branch. -/
def quickQuestion (action : String) : Option String :=
  if action = ("harvest") then some ("現在の豆苗の収穫タイミングを判断してください")
  else if action = ("disease") then some ("豆苗の病気を診断してください")
  else if action = ("cooking") then some ("収穫した豆苗の調理例を教えてください")
  else none

/-- Embedding of executeQuickAction: on an unrecognised action return at
once; otherwise fill the question input, select the matching tag and run
sendQuestion. -/
def executeQuickAction (st : MgrState) (action now : String)
    (out : ApiOutcome) (storeFails : Bool) : MgrState × Bool :=
  match quickQuestion action with
  | none => (st, false)
  | some q => sendQuestion (selectTag { st with questionInput := q } action) now out storeFails

/- ------------------------------------------------------------------ -/
/- Spec-modelled backend: schema, validator, fallback, router          -/
/- ------------------------------------------------------------------ -/

/-- Modelled from the spec: the enumerated consultation tag set
(general, harvest, disease, cooking); the backend that owns it
(src/api/ai_api.py, src/ai/ai_consultation.py) is not in the snapshot. -/
inductive Tag where
  | general : Tag
  | harvest : Tag
  | disease : Tag
  | cooking : Tag
deriving DecidableEq, Repr

/-- Modelled from the spec: the tag list served by the tags endpoint. -/
def tagList : List String := [("general"), ("harvest"), ("disease"), ("cooking")]

/-- Modelled from the spec: the Request Router resolves a tag string to
the matching service, defaulting unknown tags to general. -/
def routeTag (tag : String) : String :=
  if tag ∈ tagList then tag else ("general")

/-- Modelled from the spec: the StructuredJudgment tagged union, one
variant per tag. -/
inductive StructuredJudgment where
  | harvest : Bool → ℚ → String → ℕ → String → ℚ → StructuredJudgment
  | disease : String → ℚ → String → String → String → String → StructuredJudgment
  | cooking : List String → String → String → String → StructuredJudgment
  | general : String → ℚ → List String → List String → StructuredJudgment
deriving DecidableEq, Repr

/-- The confidence fields carried by a judgment (the cooking variant has
none). -/
def judgmentConfidences : StructuredJudgment → List ℚ
  | StructuredJudgment.harvest _ c _ _ _ _ => [c]
  | StructuredJudgment.disease _ c _ _ _ _ => [c]
  | StructuredJudgment.cooking _ _ _ _ => []
  | StructuredJudgment.general _ c _ _ => [c]

/-- Every confidence field of the judgment lies in the closed unit
interval. -/
def confidencesInRange (j : StructuredJudgment) : Bool :=
  (judgmentConfidences j).all fun c => decide (0 ≤ c) && decide (c ≤ 1)

/-- The harvest schema invariant: harvestReady implies daysRemaining is
zero (vacuously true on the other variants). -/
def harvestInvariantHolds : StructuredJudgment → Bool
  | StructuredJudgment.harvest hr _ _ dr _ _ => (!hr) || (dr == 0)
  | _ => true

/-- Modelled from the spec: the candidate harvest fields a provider reply
yields after extraction; every field may be missing. -/
structure RawHarvest where
  harvestReady : Option Bool
  confidence : Option ℚ
  recommendation : Option String
  daysRemaining : Option ℤ
  growthStage : Option String
  qualityScore : Option ℚ
deriving DecidableEq, Repr

/-- Modelled from the spec: candidate disease fields. -/
structure RawDisease where
  diseaseDetected : Option String
  confidence : Option ℚ
  treatment : Option String
  prevention : Option String
  severity : Option String
  affectedArea : Option String
deriving DecidableEq, Repr

/-- Modelled from the spec: candidate cooking fields. -/
structure RawCooking where
  recommendedDishes : Option (List String)
  cookingTips : Option String
  nutritionInfo : Option String
  storageTips : Option String
deriving DecidableEq, Repr

/-- Modelled from the spec: candidate general-consultation fields. -/
structure RawGeneral where
  answer : Option String
  confidence : Option ℚ
  relatedTopics : Option (List String)
  nextSteps : Option (List String)
deriving DecidableEq, Repr

/-- A candidate structured record extracted from a provider reply. -/
inductive RawRecord where
  | harvest : RawHarvest → RawRecord
  | disease : RawDisease → RawRecord
  | cooking : RawCooking → RawRecord
  | general : RawGeneral → RawRecord
deriving DecidableEq, Repr

/-- The confidence field carried by the candidate record (cooking has
none). -/
def rawConfidence : RawRecord → Option ℚ
  | RawRecord.harvest r => r.confidence
  | RawRecord.disease r => r.confidence
  | RawRecord.cooking _ => none
  | RawRecord.general r => r.confidence

/-- Whether the candidate record belongs to a schema that requires a
confidence field. -/
def rawNeedsConfidence : RawRecord → Bool
  | RawRecord.cooking _ => false
  | _ => true

/-- Modelled from the spec: validation of a candidate harvest record.
A missing required field, a confidence outside the unit interval, a
negative daysRemaining, or a record breaking the harvestReady implication
is rejected wholesale, never clamped or patched. -/
def parseHarvest (r : RawHarvest) : Except String StructuredJudgment :=
  match r with
  | ⟨some hr, some c, some recom, some dr, some gs, some qs⟩ =>
      if (0 ≤ c ∧ c ≤ 1) ∧ (0 ≤ dr) ∧ (hr = true → dr = 0) then
        Except.ok (StructuredJudgment.harvest hr c recom dr.toNat gs qs)
      else Except.error ("invalid harvest fields")
  | _ => Except.error ("missing required harvest field")

/-- Modelled from the spec: validation of a candidate disease record. -/
def parseDisease (r : RawDisease) : Except String StructuredJudgment :=
  match r with
  | ⟨some dd, some c, some tr, some pv, some sv, some aa⟩ =>
      if 0 ≤ c ∧ c ≤ 1 then
        Except.ok (StructuredJudgment.disease dd c tr pv sv aa)
      else Except.error ("invalid disease fields")
  | _ => Except.error ("missing required disease field")

/-- Modelled from the spec: validation of a candidate cooking record
(the dish list must be non-empty; the schema has no confidence). -/
def parseCooking (r : RawCooking) : Except String StructuredJudgment :=
  match r with
  | ⟨some dishes, some ct, some ni, some sti⟩ =>
      if dishes ≠ [] then
        Except.ok (StructuredJudgment.cooking dishes ct ni sti)
      else Except.error ("invalid cooking fields")
  | _ => Except.error ("missing required cooking field")

/-- Modelled from the spec: validation of a candidate general record
(non-empty answer, confidence in range). -/
def parseGeneral (r : RawGeneral) : Except String StructuredJudgment :=
  match r with
  | ⟨some ans, some c, some rt, some ns⟩ =>
      if (0 ≤ c ∧ c ≤ 1) ∧ ans ≠ "" then
        Except.ok (StructuredJudgment.general ans c rt ns)
      else Except.error ("invalid general fields")
  | _ => Except.error ("missing required general field")

/-- Modelled from the spec: the Response Parser and Validator, dispatched
on the tag; a record of the wrong schema for the tag is a parse failure. -/
def parseJudgment (t : Tag) (r : RawRecord) : Except String StructuredJudgment :=
  match t, r with
  | Tag.harvest, RawRecord.harvest rh => parseHarvest rh
  | Tag.disease, RawRecord.disease rd => parseDisease rd
  | Tag.cooking, RawRecord.cooking rc => parseCooking rc
  | Tag.general, RawRecord.general rg => parseGeneral rg
  | _, _ => Except.error ("tag does not match record schema")

/-- Recognise a parse failure. -/
def isErr {α β : Type} : Except α β → Bool
  | Except.error _ => true
  | Except.ok _ => false

/-- Modelled from the spec: the deterministic Fallback Policy, here a
threshold rule over the elapsed growth days of the current crop; it
always yields a schema-valid judgment. -/
def fallbackJudgment (t : Tag) (daysElapsed : ℕ) : StructuredJudgment :=
  match t with
  | Tag.harvest =>
      if 7 ≤ daysElapsed then
        StructuredJudgment.harvest true (1/2) ("収穫のタイミングです") 0 ("mature") 5
      else
        StructuredJudgment.harvest false (1/2) ("育成を続けてください") (7 - daysElapsed) ("growing") 5
  | Tag.disease =>
      StructuredJudgment.disease ("検出なし") (1/2) ("経過観察を続けてください") ("通風を良くする") ("none") ("none")
  | Tag.cooking =>
      StructuredJudgment.cooking [("豆苗炒め")] ("強火で短時間") ("ビタミンCが豊富") ("冷蔵庫で保存")
  | Tag.general =>
      StructuredJudgment.general ("センサーデータに基づく一般的な回答です") (1/2) [] []

/-- Modelled from the spec: one consultation. The provider chain either
yields a candidate record or exhausts (none); a parse failure or an
exhausted chain routes to the fallback policy, whose result is marked
degraded (second component). -/
def consult (t : Tag) (provider : Option RawRecord) (daysElapsed : ℕ) :
    StructuredJudgment × Bool :=
  match provider with
  | none => (fallbackJudgment t daysElapsed, true)
  | some r =>
      match parseJudgment t r with
      | Except.ok j => (j, false)
      | Except.error _ => (fallbackJudgment t daysElapsed, true)

/- ------------------------------------------------------------------ -/
/- Concrete inputs used by the witness theorems                        -/
/- ------------------------------------------------------------------ -/

/-- A concrete history item whose timestamp is the single character with
code 65 + i, so that distinct indices give distinct items. -/
def wItem (i : ℕ) : HistoryItem :=
  { timestamp := String.mk [Char.ofNat (65 + i)], question := ("q"),
    answer := ("a"), tag := ("general") }

/-- Fifty concrete pairwise-distinct history items. -/
def w2rest : List HistoryItem := (List.range 50).map fun i => wItem (i + 1)

/-- A concrete page state whose question input is whitespace only and
which has no attached image. -/
def w5st : MgrState :=
  { selectedTag := ("general"), chatHistory := [], stored := none,
    questionInput := ("   "), chatMessages := [], attachedImage := none,
    notifications := [] }

/-- A concrete one-entry history state. -/
def w8s : HistState := { chatHistory := [wItem 7], stored := some [wItem 7] }

/-- A concrete schema-conformant general record. -/
def w3raw : RawGeneral :=
  { answer := some ("水は毎日取り替えてください"), confidence := some (9/10),
    relatedTopics := some [], nextSteps := some [] }

/-- A concrete general record whose confidence is out of range. -/
def w3bad : RawRecord :=
  RawRecord.general
    { answer := some ("a"), confidence := some 2,
      relatedTopics := some [], nextSteps := some [] }

/- ------------------------------------------------------------------ -/
/- Helper lemmas                                                       -/
/- ------------------------------------------------------------------ -/

theorem addToHistoryList_eq_take (h : List HistoryItem) (e : HistoryItem) :
    addToHistoryList h e = (e :: h).take maxHistoryLength := by
  simp only [addToHistoryList]
  split
  · rfl
  · exact (List.take_of_length_le (Nat.le_of_not_lt (by assumption))).symm

theorem addToHistoryList_length_le (h : List HistoryItem) (e : HistoryItem) :
    (addToHistoryList h e).length ≤ maxHistoryLength := by
  rw [addToHistoryList_eq_take, List.length_take]
  exact Nat.min_le_left _ _

theorem addAll_eq_take (es : List HistoryItem) :
    ∀ h : List HistoryItem, h.length ≤ maxHistoryLength →
      addAll h es = (es.reverse ++ h).take maxHistoryLength := by
  induction es with
  | nil =>
      intro h hh
      simp only [addAll, List.foldl_nil, List.reverse_nil, List.nil_append]
      exact (List.take_of_length_le hh).symm
  | cons e rest ih =>
      intro h hh
      have h1 : addAll h (e :: rest) = addAll (addToHistoryList h e) rest := rfl
      rw [h1, ih _ (addToHistoryList_length_le h e), addToHistoryList_eq_take,
        List.reverse_cons, List.append_assoc, List.singleton_append,
        List.take_append_eq_append_take, List.take_append_eq_append_take,
        List.take_take, Nat.min_eq_left (Nat.sub_le _ _)]

theorem hist_inv_step (s : HistState) (op : HistOp) (hs : HistInvP s) :
    HistInvP (histStep s op) := by
  cases op with
  | load =>
      refine ⟨?_, hs.2⟩
      cases hst : s.stored with
      | none => simp [histStep, loadOp, storageGet, hst]
      | some l =>
          simpa [histStep, loadOp, storageGet, hst] using hs.2 l hst
  | add e fl =>
      constructor
      · simpa [histStep, addToHistoryOp] using
          addToHistoryList_length_le s.chatHistory e
      · intro l hl
        cases fl with
        | true =>
            simp [histStep, addToHistoryOp, storageSet] at hl
            exact hs.2 l hl
        | false =>
            simp [histStep, addToHistoryOp, storageSet] at hl
            rw [← hl]
            exact addToHistoryList_length_le s.chatHistory e
  | clear fl =>
      constructor
      · simp [histStep, clearHistoryOp]
      · intro l hl
        cases fl with
        | true =>
            simp [histStep, clearHistoryOp, storageRemove] at hl
            exact hs.2 l hl
        | false =>
            simp [histStep, clearHistoryOp, storageRemove] at hl

theorem hist_inv_run (ops : List HistOp) :
    ∀ s : HistState, HistInvP s → HistInvP (ops.foldl histStep s) := by
  induction ops with
  | nil => intro s hs; exact hs
  | cons op rest ih => intro s hs; exact ih _ (hist_inv_step s op hs)

theorem initHistState_inv : HistInvP initHistState := by
  constructor
  · simp [initHistState]
  · intro l hl
    simp [initHistState] at hl

/- ------------------------------------------------------------------ -/
/- Claim theorems                                                      -/
/- ------------------------------------------------------------------ -/

/-- Claim C1: for every sequence of consultation-history operations
(loading stored history, adding through addToHistory, clearing through
clearHistory) starting from the fresh state, the in-memory history never
holds more than 50 entries. -/
theorem history_length_bounded (ops : List HistOp) :
    (histRun ops).chatHistory.length ≤ maxHistoryLength :=
  (hist_inv_run ops initHistState initHistState_inv).1

/-- Claim C2: appending to a full history evicts exactly the oldest
entry. Starting from an empty history, after 51 sequential additions
(an entry e followed by 50 entries not equal to e), e is absent and the
history is exactly the later 50 entries, newest first. -/
theorem history_fifo_eviction (e : HistoryItem) (rest : List HistoryItem)
    (hlen : rest.length = maxHistoryLength) (he : e ∉ rest) :
    addAll [] (e :: rest) = rest.reverse ∧ e ∉ addAll [] (e :: rest) := by
  have h1 : addAll [] (e :: rest) =
      ((e :: rest).reverse ++ []).take maxHistoryLength :=
    addAll_eq_take (e :: rest) [] (by simp)
  rw [List.append_nil, List.reverse_cons] at h1
  have hr : rest.reverse.length = maxHistoryLength := by simp [hlen]
  have h2 : (rest.reverse ++ [e]).take maxHistoryLength = rest.reverse := by
    rw [List.take_append_eq_append_take, List.take_of_length_le (le_of_eq hr),
      hr, Nat.sub_self]
    simp
  rw [h1, h2]
  exact ⟨rfl, by simpa using he⟩

/-- Witness for C2 at a concrete family of 51 pairwise-distinct entries. -/
theorem history_fifo_eviction_witness :
    addAll [] (wItem 0 :: w2rest) = w2rest.reverse
      ∧ wItem 0 ∉ addAll [] (wItem 0 :: w2rest) :=
  history_fifo_eviction (wItem 0) w2rest (by decide) (by decide)

/-- Claim C7: when the durable write inside addToHistory throws, the
error is logged, the operation still completes with the in-memory update
applied (the new entry is at the head), the durable slot is untouched,
and the in-memory history equals what a successful write would leave. -/
theorem storage_failure_nonfatal (s : HistState) (e : HistoryItem) :
    (addToHistoryOp s e true).1.chatHistory = addToHistoryList s.chatHistory e
    ∧ (addToHistoryOp s e true).1.chatHistory.head? = some e
    ∧ (addToHistoryOp s e true).2 = true
    ∧ (addToHistoryOp s e true).1.stored = s.stored
    ∧ (addToHistoryOp s e true).1.chatHistory
        = (addToHistoryOp s e false).1.chatHistory := by
  refine ⟨rfl, ?_, by simp [addToHistoryOp, storageSet],
    by simp [addToHistoryOp, storageSet], rfl⟩
  have hc : (addToHistoryOp s e true).1.chatHistory
      = (e :: s.chatHistory).take maxHistoryLength :=
    addToHistoryList_eq_take s.chatHistory e
  rw [hc, show maxHistoryLength = 49 + 1 from rfl, List.take_succ_cons]
  rfl

/-- Claim C8: history entries are never mutated after creation. Adding a
further entry only shifts the surviving entries (each survivor is the
identical value one position later, and the new history is a sublist of
the new entry consed on the old), rendering the display leaves the state
unchanged, and clearing evicts wholesale to the empty history. -/
theorem history_entries_immutable (s : HistState) (e : HistoryItem)
    (fl : Bool) (i : ℕ) (hi : i + 1 < maxHistoryLength) :
    ((addToHistoryOp s e fl).1.chatHistory.get? (i + 1) = s.chatHistory.get? i)
    ∧ List.Sublist (addToHistoryOp s e fl).1.chatHistory (e :: s.chatHistory)
    ∧ (updateHistoryDisplayOp s).1 = s
    ∧ (clearHistoryOp s fl).chatHistory = [] := by
  have hc : (addToHistoryOp s e fl).1.chatHistory
      = (e :: s.chatHistory).take maxHistoryLength :=
    addToHistoryList_eq_take s.chatHistory e
  refine ⟨?_, ?_, rfl, rfl⟩
  · rw [hc, List.get?_take hi, List.get?_cons_succ]
  · rw [hc]
    exact List.take_sublist _ _

/-- Witness for C8 at a concrete one-entry state. -/
theorem history_entries_immutable_witness :
    ((addToHistoryOp w8s (wItem 8) false).1.chatHistory.get? 1
        = w8s.chatHistory.get? 0)
    ∧ List.Sublist (addToHistoryOp w8s (wItem 8) false).1.chatHistory
        (wItem 8 :: w8s.chatHistory)
    ∧ (updateHistoryDisplayOp w8s).1 = w8s
    ∧ (clearHistoryOp w8s false).chatHistory = [] :=
  history_entries_immutable w8s (wItem 8) false 0 (by decide)

/-- Claim C9: calculatePercentage never divides by zero; a zero total
yields 0 and a nonzero total yields the rounded percentage. -/
theorem calculatePercentage_safe (v t : ℚ) :
    calculatePercentage v 0 = 0
    ∧ (t ≠ 0 → calculatePercentage v t = jsRound (v / t * 100)) :=
  ⟨by simp [calculatePercentage], fun ht => by simp [calculatePercentage, ht]⟩

/-- Witness for C9 at value 7 with totals 0 and 4. -/
theorem calculatePercentage_safe_witness :
    calculatePercentage 7 0 = 0
    ∧ calculatePercentage 7 4 = jsRound (7 / 4 * 100) :=
  ⟨(calculatePercentage_safe 7 4).1, (calculatePercentage_safe 7 4).2 (by norm_num)⟩

/-- Claim C5: with an empty-after-trim question and no attached image,
sendQuestion issues no request and only shows a warning, leaving chat,
history, durable slot, input field and selected tag unchanged; and in
general a request is issued exactly when the trimmed question is
non-empty or an image is attached. -/
theorem sendQuestion_requires_input (st : MgrState) (now : String)
    (out : ApiOutcome) (fl : Bool) :
    (jsTrim st.questionInput = "" → st.attachedImage = none →
      (sendQuestion st now out fl).2 = false
      ∧ (sendQuestion st now out fl).1.chatMessages = st.chatMessages
      ∧ (sendQuestion st now out fl).1.chatHistory = st.chatHistory
      ∧ (sendQuestion st now out fl).1.stored = st.stored
      ∧ (sendQuestion st now out fl).1.questionInput = st.questionInput
      ∧ (sendQuestion st now out fl).1.selectedTag = st.selectedTag
      ∧ (sendQuestion st now out fl).1.notifications
          = st.notifications ++ [(("質問を入力するか画像を添付してください"), ("warning"))])
    ∧ ((sendQuestion st now out fl).2 = true
        ↔ ¬(jsTrim st.questionInput = "" ∧ st.attachedImage = none)) := by
  constructor
  · intro h1 h2
    simp [sendQuestion, h1, h2, notify]
  · by_cases hg : jsTrim st.questionInput = "" ∧ st.attachedImage = none
    · simp [sendQuestion, hg]
    · cases out <;> simp [sendQuestion, hg]

/-- Witness for C5 at a whitespace-only question with no image. -/
theorem sendQuestion_requires_input_witness :
    (sendQuestion w5st ("t0") (ApiOutcome.success ("ok")) false).2 = false
    ∧ (sendQuestion w5st ("t0") (ApiOutcome.success ("ok")) false).1.chatMessages
        = w5st.chatMessages
    ∧ (sendQuestion w5st ("t0") (ApiOutcome.success ("ok")) false).1.chatHistory
        = w5st.chatHistory
    ∧ (sendQuestion w5st ("t0") (ApiOutcome.success ("ok")) false).1.stored
        = w5st.stored
    ∧ (sendQuestion w5st ("t0") (ApiOutcome.success ("ok")) false).1.questionInput
        = w5st.questionInput
    ∧ (sendQuestion w5st ("t0") (ApiOutcome.success ("ok")) false).1.selectedTag
        = w5st.selectedTag
    ∧ (sendQuestion w5st ("t0") (ApiOutcome.success ("ok")) false).1.notifications
        = w5st.notifications ++ [(("質問を入力するか画像を添付してください"), ("warning"))] :=
  (sendQuestion_requires_input w5st ("t0") (ApiOutcome.success ("ok")) false).1
    (by decide) rfl

/-- Claim C6: the manager starts with the general tag selected, and the
router keeps every consultation tag inside the enumerated set by mapping
any unknown tag to general. -/
theorem tag_always_enumerated :
    initMgrState.selectedTag = ("general")
    ∧ (∀ t : String, routeTag t ∈ tagList)
    ∧ (∀ t : String, t ∉ tagList → routeTag t = ("general")) := by
  refine ⟨rfl, ?_, ?_⟩
  · intro t
    unfold routeTag
    split
    · assumption
    · decide
  · intro t ht
    unfold routeTag
    rw [if_neg ht]

/-- Witness for C6 at an unknown tag and at a known tag. -/
theorem tag_always_enumerated_witness :
    routeTag ("banana") = ("general") ∧ routeTag ("harvest") ∈ tagList :=
  ⟨tag_always_enumerated.2.2 ("banana") (by decide),
    tag_always_enumerated.2.1 ("harvest")⟩

/-- Claim C10: executeQuickAction with an action outside harvest, disease
and cooking is a no-op: the page state is returned unchanged and no API
request is issued. -/
theorem executeQuickAction_unknown_noop (st : MgrState) (action now : String)
    (out : ApiOutcome) (fl : Bool) (h1 : action ≠ ("harvest"))
    (h2 : action ≠ ("disease")) (h3 : action ≠ ("cooking")) :
    executeQuickAction st action now out fl = (st, false) := by
  simp [executeQuickAction, quickQuestion, h1, h2, h3]

/-- Witness for C10 at a concrete unknown action. -/
theorem executeQuickAction_unknown_noop_witness :
    executeQuickAction w5st ("status") ("t0") (ApiOutcome.success ("ok")) false
      = (w5st, false) :=
  executeQuickAction_unknown_noop w5st ("status") ("t0")
    (ApiOutcome.success ("ok")) false (by decide) (by decide) (by decide)

theorem parseHarvest_ok (r : RawHarvest) (j : StructuredJudgment)
    (h : parseHarvest r = Except.ok j) :
    confidencesInRange j = true ∧ harvestInvariantHolds j = true := by
  rcases r with ⟨hro, co, ro, dro, gso, qso⟩
  rcases hro with _ | hrb <;> rcases co with _ | cq <;> rcases ro with _ | rs <;>
    rcases dro with _ | dz <;> rcases gso with _ | gss <;> rcases qso with _ | qq <;>
    simp only [parseHarvest] at h <;> try exact Except.noConfusion h
  split at h
  · injection h with h
    subst h
    rename_i hcond
    constructor
    · simp only [confidencesInRange, judgmentConfidences, List.all_cons,
        List.all_nil, Bool.and_true, Bool.and_eq_true, decide_eq_true_eq]
      exact ⟨hcond.1.1, hcond.1.2⟩
    · cases hrb with
      | false => simp [harvestInvariantHolds]
      | true => simp [harvestInvariantHolds, hcond.2.2 rfl]
  · exact Except.noConfusion h

theorem parseDisease_ok (r : RawDisease) (j : StructuredJudgment)
    (h : parseDisease r = Except.ok j) :
    confidencesInRange j = true ∧ harvestInvariantHolds j = true := by
  rcases r with ⟨dd, c, tr, pv, sv, aa⟩
  cases dd <;> cases c <;> cases tr <;> cases pv <;> cases sv <;> cases aa <;>
    simp only [parseDisease] at h <;> try exact Except.noConfusion h
  split at h
  · injection h with h
    subst h
    rename_i hcond
    constructor
    · simp only [confidencesInRange, judgmentConfidences, List.all_cons,
        List.all_nil, Bool.and_true, Bool.and_eq_true, decide_eq_true_eq]
      exact hcond
    · simp [harvestInvariantHolds]
  · exact Except.noConfusion h

theorem parseCooking_ok (r : RawCooking) (j : StructuredJudgment)
    (h : parseCooking r = Except.ok j) :
    confidencesInRange j = true ∧ harvestInvariantHolds j = true := by
  rcases r with ⟨ds, ct, ni, sti⟩
  cases ds <;> cases ct <;> cases ni <;> cases sti <;>
    simp only [parseCooking] at h <;> try exact Except.noConfusion h
  split at h
  · injection h with h
    subst h
    exact ⟨rfl, rfl⟩
  · exact Except.noConfusion h

theorem parseGeneral_ok (r : RawGeneral) (j : StructuredJudgment)
    (h : parseGeneral r = Except.ok j) :
    confidencesInRange j = true ∧ harvestInvariantHolds j = true := by
  rcases r with ⟨ans, c, rt, ns⟩
  cases ans <;> cases c <;> cases rt <;> cases ns <;>
    simp only [parseGeneral] at h <;> try exact Except.noConfusion h
  split at h
  · injection h with h
    subst h
    rename_i hcond
    constructor
    · simp only [confidencesInRange, judgmentConfidences, List.all_cons,
        List.all_nil, Bool.and_true, Bool.and_eq_true, decide_eq_true_eq]
      exact hcond.1
    · simp [harvestInvariantHolds]
  · exact Except.noConfusion h

theorem parseJudgment_ok (t : Tag) (r : RawRecord) (j : StructuredJudgment)
    (h : parseJudgment t r = Except.ok j) :
    confidencesInRange j = true ∧ harvestInvariantHolds j = true := by
  cases t <;> cases r <;> simp only [parseJudgment] at h <;>
    first
      | exact Except.noConfusion h
      | exact parseHarvest_ok _ _ h
      | exact parseDisease_ok _ _ h
      | exact parseCooking_ok _ _ h
      | exact parseGeneral_ok _ _ h

theorem fallback_ok (t : Tag) (d : ℕ) :
    confidencesInRange (fallbackJudgment t d) = true
    ∧ harvestInvariantHolds (fallbackJudgment t d) = true := by
  have hhalf : (0 : ℚ) ≤ 1 / 2 ∧ (1 : ℚ) / 2 ≤ 1 := by norm_num
  cases t with
  | general =>
      constructor
      · simp only [fallbackJudgment, confidencesInRange, judgmentConfidences,
          List.all_cons, List.all_nil, Bool.and_true, Bool.and_eq_true,
          decide_eq_true_eq]
        exact hhalf
      · simp [fallbackJudgment, harvestInvariantHolds]
  | disease =>
      constructor
      · simp only [fallbackJudgment, confidencesInRange, judgmentConfidences,
          List.all_cons, List.all_nil, Bool.and_true, Bool.and_eq_true,
          decide_eq_true_eq]
        exact hhalf
      · simp [fallbackJudgment, harvestInvariantHolds]
  | cooking =>
      constructor
      · simp [fallbackJudgment, confidencesInRange, judgmentConfidences]
      · simp [fallbackJudgment, harvestInvariantHolds]
  | harvest =>
      simp only [fallbackJudgment]
      split
      · constructor
        · simp only [confidencesInRange, judgmentConfidences, List.all_cons,
            List.all_nil, Bool.and_true, Bool.and_eq_true, decide_eq_true_eq]
          exact hhalf
        · simp [harvestInvariantHolds]
      · constructor
        · simp only [confidencesInRange, judgmentConfidences, List.all_cons,
            List.all_nil, Bool.and_true, Bool.and_eq_true, decide_eq_true_eq]
          exact hhalf
        · simp [harvestInvariantHolds]

theorem conf_out_of_range_rejected (t : Tag) (r : RawRecord) (x : ℚ)
    (hx : rawConfidence r = some x) (hr : ¬(0 ≤ x ∧ x ≤ 1)) :
    isErr (parseJudgment t r) = true := by
  cases t with
  | general =>
      cases r with
      | harvest rh => simp [parseJudgment, isErr]
      | disease rd => simp [parseJudgment, isErr]
      | cooking rc => simp [parseJudgment, isErr]
      | general rg =>
          rcases rg with ⟨ans, cc, rt, ns⟩
          simp only [rawConfidence] at hx
          subst hx
          cases ans <;> cases rt <;> cases ns <;>
            simp [parseJudgment, parseGeneral, isErr, hr]
  | harvest =>
      cases r with
      | disease rd => simp [parseJudgment, isErr]
      | cooking rc => simp [parseJudgment, isErr]
      | general rg => simp [parseJudgment, isErr]
      | harvest rh =>
          rcases rh with ⟨hrv, cc, recom, dr, gs, qs⟩
          simp only [rawConfidence] at hx
          subst hx
          cases hrv <;> cases recom <;> cases dr <;> cases gs <;> cases qs <;>
            simp [parseJudgment, parseHarvest, isErr, hr]
  | disease =>
      cases r with
      | harvest rh => simp [parseJudgment, isErr]
      | cooking rc => simp [parseJudgment, isErr]
      | general rg => simp [parseJudgment, isErr]
      | disease rd =>
          rcases rd with ⟨dd, cc, tr, pv, sv, aa⟩
          simp only [rawConfidence] at hx
          subst hx
          cases dd <;> cases tr <;> cases pv <;> cases sv <;> cases aa <;>
            simp [parseJudgment, parseDisease, isErr, hr]
  | cooking =>
      cases r with
      | harvest rh => simp [parseJudgment, isErr]
      | disease rd => simp [parseJudgment, isErr]
      | general rg => simp [parseJudgment, isErr]
      | cooking rc => simp [rawConfidence] at hx

theorem conf_missing_rejected (t : Tag) (r : RawRecord)
    (hneed : rawNeedsConfidence r = true) (hx : rawConfidence r = none) :
    isErr (parseJudgment t r) = true := by
  cases t with
  | general =>
      cases r with
      | harvest rh => simp [parseJudgment, isErr]
      | disease rd => simp [parseJudgment, isErr]
      | cooking rc => simp [parseJudgment, isErr]
      | general rg =>
          rcases rg with ⟨ans, cc, rt, ns⟩
          simp only [rawConfidence] at hx
          subst hx
          cases ans <;> cases rt <;> cases ns <;>
            simp [parseJudgment, parseGeneral, isErr]
  | harvest =>
      cases r with
      | disease rd => simp [parseJudgment, isErr]
      | cooking rc => simp [parseJudgment, isErr]
      | general rg => simp [parseJudgment, isErr]
      | harvest rh =>
          rcases rh with ⟨hrv, cc, recom, dr, gs, qs⟩
          simp only [rawConfidence] at hx
          subst hx
          cases hrv <;> cases recom <;> cases dr <;> cases gs <;> cases qs <;>
            simp [parseJudgment, parseHarvest, isErr]
  | disease =>
      cases r with
      | harvest rh => simp [parseJudgment, isErr]
      | cooking rc => simp [parseJudgment, isErr]
      | general rg => simp [parseJudgment, isErr]
      | disease rd =>
          rcases rd with ⟨dd, cc, tr, pv, sv, aa⟩
          simp only [rawConfidence] at hx
          subst hx
          cases dd <;> cases tr <;> cases pv <;> cases sv <;> cases aa <;>
            simp [parseJudgment, parseDisease, isErr]
  | cooking =>
      cases r with
      | harvest rh => simp [parseJudgment, isErr]
      | disease rd => simp [parseJudgment, isErr]
      | general rg => simp [parseJudgment, isErr]
      | cooking rc => simp [rawNeedsConfidence] at hneed

/-- Claim C3: every judgment returned by a consultation (success or
fallback, for each of the four tags) has all its confidence fields in
the closed unit interval, and the validator rejects a candidate record
with an out-of-range or missing confidence outright instead of clamping
it. -/
theorem confidence_in_range :
    (∀ (t : Tag) (p : Option RawRecord) (d : ℕ),
        confidencesInRange (consult t p d).1 = true)
    ∧ (∀ (t : Tag) (r : RawRecord) (x : ℚ), rawConfidence r = some x →
        ¬(0 ≤ x ∧ x ≤ 1) → isErr (parseJudgment t r) = true)
    ∧ (∀ (t : Tag) (r : RawRecord), rawNeedsConfidence r = true →
        rawConfidence r = none → isErr (parseJudgment t r) = true) := by
  refine ⟨?_, conf_out_of_range_rejected, conf_missing_rejected⟩
  intro t p d
  cases p with
  | none => exact (fallback_ok t d).1
  | some r =>
      cases hpj : parseJudgment t r with
      | ok j => simpa [consult, hpj] using (parseJudgment_ok t r j hpj).1
      | error e =>
          simp only [consult, hpj]
          exact (fallback_ok t d).1

/-- Witness for C3: a conformant general record passes with its
confidence intact, and a confidence of 2 is rejected. -/
theorem confidence_in_range_witness :
    confidencesInRange (consult Tag.general (some (RawRecord.general w3raw)) 0).1 = true
    ∧ isErr (parseJudgment Tag.general w3bad) = true :=
  ⟨confidence_in_range.1 Tag.general (some (RawRecord.general w3raw)) 0,
    confidence_in_range.2.1 Tag.general w3bad 2 rfl (by norm_num)⟩

/-- Claim C4: every harvest judgment a consultation returns (parsed from
a provider record or produced by the fallback policy) satisfies the
implication harvestReady implies daysRemaining equals zero. -/
theorem harvest_ready_implies_zero_days (p : Option RawRecord) (d : ℕ) :
    harvestInvariantHolds (consult Tag.harvest p d).1 = true := by
  cases p with
  | none => exact (fallback_ok Tag.harvest d).2
  | some r =>
      cases hpj : parseJudgment Tag.harvest r with
      | ok j => simpa [consult, hpj] using (parseJudgment_ok Tag.harvest r j hpj).2
      | error e =>
          simp only [consult, hpj]
          exact (fallback_ok Tag.harvest d).2

end BeanSprout
